import Mathlib

/-!
Shallow embedding of the HackSorter multi-agent hiring system
(backend/agents/referee.py, backend/agents/resume.py, backend/utils/llm.py,
backend/graph.py, backend/main.py).

Numeric scores and weights are embedded as rationals; Python dict lookups
with defaults become Option with getD; the opaque language-model backend is
a parameter (its parsed response, a JSON-decode failure, or a raised
exception), matching the try/except structure of each agent.
-/

namespace HackSorter

/-- The five Layer-1 scoring sources the referee consumes
(referee.py lines 19-23). -/
inductive Source
  | resume
  | cover_letter
  | jd_match
  | github
  | location
  deriving DecidableEq, Fintype

/-- The five source names in the order the default-weights dict lists them
(referee.py lines 27-33). -/
def sourceList : List Source :=
  [Source.resume, Source.cover_letter, Source.jd_match, Source.github, Source.location]

/-- Hard-coded default weight per source: the fallback dict at referee.py
lines 27-33, which also reappears as the per-key getD defaults in the
weighted sum at lines 128-132 and 163-167. -/
def defaultWeight : Source → ℚ
  | Source.resume => 0.2
  | Source.cover_letter => 0.15
  | Source.jd_match => 0.3
  | Source.github => 0.2
  | Source.location => 0.15

/-- The slice of AgentGraphState that referee_agent reads for its
arithmetic.  rawScore s models state.get(s_score, dict()).get(score, 0):
the outer Option is presence of the per-source result dict, the inner
Option is presence of its score field.  weights models
hiring_criteria.get(weights, defaults) — none means the key was absent and
the default dict is used (referee.py lines 26-33).  strictness models
hiring_criteria.get(strictness, medium) (line 34).  totalAdjustment models
fairness_audit.get(total_adjustment, 0) (line 44), with none covering both
a missing fairness_audit dict and a missing key. -/
structure RefState where
  rawScore : Source → Option (Option ℚ)
  weights : Option (Source → Option ℚ)
  strictness : Option String
  totalAdjustment : Option ℚ

/-- Score collection, referee.py lines 19-23: a missing result dict or a
missing score field yields 0; any present value is used as-is (no
clamping). -/
def collectScore (st : RefState) (s : Source) : ℚ :=
  ((st.rawScore s).getD none).getD 0

/-- The weights mapping actually iterated over: the supplied dict, or the
hard-coded default dict when the weights key is absent (referee.py
lines 27-33). -/
def suppliedWeights (st : RefState) : Source → Option ℚ :=
  st.weights.getD (fun s => some (defaultWeight s))

/-- total_weight = sum(weights.values()) at referee.py line 37, over the
five recognized source keys. -/
def totalWeight (w : Source → Option ℚ) : ℚ :=
  ((sourceList.map (fun s => (w s).getD 0)).sum)

/-- Weight normalization, referee.py lines 38-39: divide every supplied
entry by total_weight when that is positive, otherwise leave the mapping
unchanged.  Only entries present in the dict are rescaled. -/
def normalizeWeights (w : Source → Option ℚ) : Source → Option ℚ :=
  if totalWeight w > 0 then fun s => (w s).map (fun v => v / totalWeight w) else w

/-- The weight each source contributes to the weighted sum: the normalized
supplied entry when present, otherwise the hard-coded per-source default
(the getD defaults at referee.py lines 128-132). -/
def effectiveWeight (w : Source → Option ℚ) (s : Source) : ℚ :=
  (normalizeWeights w s).getD (defaultWeight s)

/-- weighted_before_fairness, referee.py lines 127-133, in the order the
source writes the five terms (jd_match, github, resume, cover_letter,
location). -/
def weightedBeforeFairness (st : RefState) : ℚ :=
  collectScore st Source.jd_match * effectiveWeight (suppliedWeights st) Source.jd_match +
  collectScore st Source.github * effectiveWeight (suppliedWeights st) Source.github +
  collectScore st Source.resume * effectiveWeight (suppliedWeights st) Source.resume +
  collectScore st Source.cover_letter * effectiveWeight (suppliedWeights st) Source.cover_letter +
  collectScore st Source.location * effectiveWeight (suppliedWeights st) Source.location

/-- total_fairness_adjustment, referee.py line 44. -/
def totalAdj (st : RefState) : ℚ :=
  st.totalAdjustment.getD 0

/-- The strictness string handed to the backend prompt, referee.py line 34
(used at line 149): dict get with default, so medium only when the key is
absent. -/
def refereeStrictness (st : RefState) : String :=
  st.strictness.getD "medium"

/-- The final_verdict dict shape built by referee_agent (referee.py
lines 102-119 on the success path, 158-176 and 178-196 on the fallback
paths). -/
structure Verdict where
  final_score : ℚ
  verdict : String
  weighted_scores : Source → ℚ
  fairness_adjustment_applied : ℚ
  decision_reasoning : String
  key_strengths : List String
  key_concerns : List String
  next_steps : String
  thought_process : String

/-- Outcome of the opaque backend invocation inside the try block of
referee_agent: a successfully parsed JSON verdict (lines 136-152), a
json.JSONDecodeError from json.loads (line 157), or any other raised
exception (line 177). -/
inductive LLMOutcome
  | parsed (v : Verdict)
  | jsonDecodeError
  | exception (msg : String)

/-- The per-source weighted_scores entries of the fallback verdict,
referee.py lines 163-167 and 183-187. -/
def fallbackWeighted (st : RefState) (s : Source) : ℚ :=
  collectScore st s * effectiveWeight (suppliedWeights st) s

/-- Body of referee_agent after the LLM client is initialized: the success
path returns the parsed JSON unchanged (lines 152-156); the
JSONDecodeError handler (lines 158-176) and the generic exception handler
(lines 178-196) both build a fallback verdict from the locally computed
arithmetic with a MAYBE label. -/
def refereeResult (st : RefState) (resp : LLMOutcome) : Verdict :=
  match resp with
  | LLMOutcome.parsed v => v
  | LLMOutcome.jsonDecodeError =>
      { final_score := weightedBeforeFairness st + totalAdj st
        verdict := "MAYBE"
        weighted_scores := fallbackWeighted st
        fairness_adjustment_applied := totalAdj st
        decision_reasoning := "Unable to parse full reasoning due to data format error."
        key_strengths := []
        key_concerns := ["Data format error in analysis"]
        next_steps := "Please review data and rerun analysis."
        thought_process := "I encountered an error while making the final decision using the custom weights. The preliminary weighted score is approximately the calculated value, but please check the data format." }
  | LLMOutcome.exception e =>
      { final_score := weightedBeforeFairness st + totalAdj st
        verdict := "MAYBE"
        weighted_scores := fallbackWeighted st
        fairness_adjustment_applied := totalAdj st
        decision_reasoning := "Error: " ++ e
        key_strengths := []
        key_concerns := ["Error: " ++ e]
        next_steps := "Please review the error and rerun analysis."
        thought_process := "I encountered an error while applying custom weights: " ++ e }

/-- Outcome of initialize_llm (backend/utils/llm.py lines 17-26): raises
ValueError when GROQ_API_KEY is unset, otherwise returns a client.  Every
agent calls it before entering its try block. -/
inductive InitOutcome
  | ok
  | fail (msg : String)

/-- Full referee_agent including the initialize_llm call at referee.py
line 16, which sits outside the try block: an initialization failure
propagates as an exception (Except.error). -/
def referee_agent (init : InitOutcome) (st : RefState) (resp : LLMOutcome) :
    Except String Verdict :=
  match init with
  | InitOutcome.fail msg => Except.error msg
  | InitOutcome.ok => Except.ok (refereeResult st resp)

/-- The resume_score dict shape built by resume_analyst
(backend/agents/resume.py lines 36-44 and the fallbacks at 66-86). -/
structure ResumeScore where
  score : ℚ
  strengths : List String
  weaknesses : List String
  seniority_fit : String
  experience_years : ℚ
  thought_process : String

/-- Outcome of the backend invocation and JSON parse inside the try block
of resume_analyst (resume.py lines 51-63). -/
inductive TaskStep
  | success (r : ResumeScore)
  | jsonDecodeError
  | invokeError (msg : String)

/-- Body of resume_analyst after the LLM client is initialized: parsed JSON
returned unchanged (resume.py lines 59-63), JSONDecodeError fallback
(lines 64-75), generic exception fallback (lines 76-86). -/
def resumeResult : TaskStep → ResumeScore
  | TaskStep.success r => r
  | TaskStep.jsonDecodeError =>
      { score := 0
        strengths := []
        weaknesses := ["Failed to parse resume"]
        seniority_fit := "Unknown"
        experience_years := 0
        thought_process := "I encountered an error while analyzing the resume. Please check the format." }
  | TaskStep.invokeError e =>
      { score := 0
        strengths := []
        weaknesses := ["Error: " ++ e]
        seniority_fit := "Unknown"
        experience_years := 0
        thought_process := "I encountered an error: " ++ e }

/-- Full resume_analyst including the initialize_llm call at resume.py
line 16, outside the try block: an initialization failure propagates. -/
def resume_analyst (init : InitOutcome) (step : TaskStep) :
    Except String ResumeScore :=
  match init with
  | InitOutcome.fail msg => Except.error msg
  | InitOutcome.ok => Except.ok (resumeResult step)

/-- The three recognized strictness levels (spec section 3; the DECISION
RULES table at referee.py lines 97-100 lists one row per level). -/
inductive Strictness
  | low
  | medium
  | high
  deriving DecidableEq, Fintype

/-- The three verdict labels. -/
inductive VerdictLabel
  | REJECTED
  | MAYBE
  | SHORTLISTED
  deriving DecidableEq, Fintype

/-- Order of favourability of the labels, for stating monotonicity. -/
def verdictRank : VerdictLabel → Nat
  | VerdictLabel.REJECTED => 0
  | VerdictLabel.MAYBE => 1
  | VerdictLabel.SHORTLISTED => 2

/-- The strictness-to-threshold policy, translated row by row from the
DECISION RULES table in the referee prompt (referee.py lines 97-100):
HIGH: score greater than 85 SHORTLISTED, 70-85 MAYBE, below 70 REJECTED;
MEDIUM: 75 / 60-75 / below 60; LOW: 60 / 45-60 / below 45. -/
def verdictOf : Strictness → ℚ → VerdictLabel
  | Strictness.high, s =>
      if s > 85 then VerdictLabel.SHORTLISTED
      else if 70 ≤ s ∧ s ≤ 85 then VerdictLabel.MAYBE
      else VerdictLabel.REJECTED
  | Strictness.medium, s =>
      if s > 75 then VerdictLabel.SHORTLISTED
      else if 60 ≤ s ∧ s ≤ 75 then VerdictLabel.MAYBE
      else VerdictLabel.REJECTED
  | Strictness.low, s =>
      if s > 60 then VerdictLabel.SHORTLISTED
      else if 45 ≤ s ∧ s ≤ 60 then VerdictLabel.MAYBE
      else VerdictLabel.REJECTED

/-- The seven graph nodes registered in build_hiring_graph
(backend/graph.py lines 39-45). -/
inductive Node
  | resume_analyst
  | cover_letter_analyst
  | jd_match_analyst
  | github_analyst
  | location_coordinator
  | fairness_auditor
  | referee_agent
  deriving DecidableEq, Fintype

/-- All seven nodes in registration order (graph.py lines 39-45). -/
def allNodes : List Node :=
  [Node.resume_analyst, Node.cover_letter_analyst, Node.jd_match_analyst,
   Node.github_analyst, Node.location_coordinator, Node.fairness_auditor,
   Node.referee_agent]

/-- The five Layer-1 analysts, fanned out from START (graph.py
lines 48-52). -/
def layer1 : List Node :=
  [Node.resume_analyst, Node.cover_letter_analyst, Node.jd_match_analyst,
   Node.github_analyst, Node.location_coordinator]

/-- Dependency edges of the graph (graph.py lines 55-62): the fairness
auditor waits for all five analysts, the referee waits for the fairness
auditor, and the Layer-1 analysts depend only on START. -/
def deps : Node → List Node
  | Node.fairness_auditor => layer1
  | Node.referee_agent => [Node.fairness_auditor]
  | _ => []

/-- A completion order is admissible when every node completes only after
all of its dependencies have completed (the LangGraph executor launches a
node once its incoming edges are all satisfied). -/
def seenOK : List Node → List Node → Bool
  | _, [] => true
  | seen, n :: rest => (deps n).all (fun d => decide (d ∈ seen)) && seenOK (n :: seen) rest

/-- respectsDeps s: the completion order s is admissible for the graph. -/
def respectsDeps (s : List Node) : Bool := seenOK [] s

/-- Events yielded by stream_agent_analysis (backend/main.py): one per-agent
message per on_chain_end of a known node (lines 107-169), then either the
terminal completion message (lines 172-178) or, if the iteration raises,
the terminal error message (lines 180-188). -/
inductive Ev
  | task (n : Node)
  | completionEv
  | errorEv
  deriving DecidableEq

/-- Terminal events: the system-level completion and error messages. -/
def isTerminal : Ev → Bool
  | Ev.task _ => false
  | Ev.completionEv => true
  | Ev.errorEv => true

/-- Stream of a fully successful run: one task event per completed node in
completion order, then the single completion message (main.py
lines 100-178). -/
def successStream (s : List Node) : List Ev :=
  s.map Ev.task ++ [Ev.completionEv]

/-- Stream of an aborted run: the task events of the nodes that completed
before the failure, then the single error message (main.py
lines 180-188). -/
def abortStream (p : List Node) : List Ev :=
  p.map Ev.task ++ [Ev.errorEv]

/-- A run either completes with some admissible completion order of the
seven nodes, or aborts after a prefix of completions. -/
inductive RunOutcome
  | success (s : List Node)
  | aborted (p : List Node)

/-- The event stream produced for a run outcome. -/
def eventStream : RunOutcome → List Ev
  | RunOutcome.success s => successStream s
  | RunOutcome.aborted p => abortStream p

/-- Concrete referee state used as counterexample input: the resume analyst
reported 100, all other analysts reported 0, the weights key is absent
(default weights apply), strictness absent, fairness adjustment 0. -/
def cexState : RefState :=
  { rawScore := fun s => match s with
      | Source.resume => some (some 100)
      | _ => some (some 0)
    weights := none
    strictness := none
    totalAdjustment := some 0 }

/-- A syntactically well-formed backend verdict whose numeric final_score
(0) disagrees with the locally computed arithmetic. -/
def cexVerdict : Verdict :=
  { final_score := 0
    verdict := "SHORTLISTED"
    weighted_scores := fun _ => 0
    fairness_adjustment_applied := 0
    decision_reasoning := "backend-reported reasoning"
    key_strengths := []
    key_concerns := []
    next_steps := "none"
    thought_process := "backend-reported thoughts" }

/-- Concrete referee state in which the resume task reported the
out-of-range score 150. -/
def overState : RefState :=
  { rawScore := fun s => match s with
      | Source.resume => some (some 150)
      | _ => some (some 0)
    weights := none
    strictness := none
    totalAdjustment := some 0 }

/-- Concrete weights dict supplying only the resume entry (value 2); the
other four source names are omitted. -/
def exWeights : Source → Option ℚ :=
  fun s => match s with
    | Source.resume => some 2
    | _ => none

/-- Concrete referee state using exWeights, with jd_match score 100 and all
other scores 0. -/
def exState : RefState :=
  { rawScore := fun s => match s with
      | Source.jd_match => some (some 100)
      | _ => some (some 0)
    weights := some exWeights
    strictness := none
    totalAdjustment := none }

/-- C1: the claim as stated is false on the code: on the success path the
verdict is the parsed backend JSON returned unchanged (referee.py
lines 152-156), so its final_score need not equal the locally computed
weighted score plus adjustment.  Here all scores are in [0,100] and the
adjustment is in [-50,50], yet the emitted final_score is 0 while the
computed value is 20. -/
theorem claim_C1_cex :
    (∀ s : Source, 0 ≤ collectScore cexState s ∧ collectScore cexState s ≤ 100) ∧
    (-50 ≤ totalAdj cexState ∧ totalAdj cexState ≤ 50) ∧
    (refereeResult cexState (LLMOutcome.parsed cexVerdict)).final_score ≠
      weightedBeforeFairness cexState + totalAdj cexState := by
  refine ⟨?_, ?_, ?_⟩
  · intro s; cases s <;> norm_num [collectScore, cexState]
  · norm_num [totalAdj, cexState]
  · norm_num [refereeResult, cexVerdict, totalAdj, cexState, weightedBeforeFairness,
      collectScore, effectiveWeight, normalizeWeights, suppliedWeights, totalWeight,
      sourceList, defaultWeight]

/-- C1 (amended): whenever the decision step falls into one of its two
exception handlers (JSON decode failure or any other exception), the
emitted final_score equals the weighted pre-fairness score plus the total
adjustment, exactly, for any five scores in [0,100] and any adjustment in
[-50,50]; on the success path the final_score is the backend-reported
value instead. -/
theorem claim_C1 (st : RefState) (e : String)
    (hs : ∀ s : Source, 0 ≤ collectScore st s ∧ collectScore st s ≤ 100)
    (ha1 : -50 ≤ totalAdj st) (ha2 : totalAdj st ≤ 50) :
    (refereeResult st LLMOutcome.jsonDecodeError).final_score =
      weightedBeforeFairness st + totalAdj st ∧
    (refereeResult st (LLMOutcome.exception e)).final_score =
      weightedBeforeFairness st + totalAdj st :=
  ⟨rfl, rfl⟩

/-- Witness for C1 at a concrete state. -/
theorem claim_C1_witness :
    (refereeResult cexState LLMOutcome.jsonDecodeError).final_score =
      weightedBeforeFairness cexState + totalAdj cexState ∧
    (refereeResult cexState (LLMOutcome.exception "backend unavailable")).final_score =
      weightedBeforeFairness cexState + totalAdj cexState :=
  claim_C1 cexState "backend unavailable"
    (by intro s; cases s <;> norm_num [collectScore, cexState])
    (by norm_num [totalAdj, cexState])
    (by norm_num [totalAdj, cexState])

/-- C6: when the decision step cannot produce a well-formed verdict (JSON
decode failure or any other exception), referee_agent still emits a
verdict whose final_score is exactly the computed weighted pre-fairness
score plus the total adjustment, whose label is MAYBE, and which records a
concern. -/
theorem claim_C6 (st : RefState) (e : String) :
    ((refereeResult st LLMOutcome.jsonDecodeError).final_score =
        weightedBeforeFairness st + totalAdj st ∧
      (refereeResult st LLMOutcome.jsonDecodeError).verdict = "MAYBE" ∧
      (refereeResult st LLMOutcome.jsonDecodeError).key_concerns ≠ []) ∧
    ((refereeResult st (LLMOutcome.exception e)).final_score =
        weightedBeforeFairness st + totalAdj st ∧
      (refereeResult st (LLMOutcome.exception e)).verdict = "MAYBE" ∧
      (refereeResult st (LLMOutcome.exception e)).key_concerns ≠ []) := by
  refine ⟨⟨rfl, rfl, ?_⟩, rfl, rfl, ?_⟩ <;> simp [refereeResult]

/-- C7: the claim as stated is false on the code: score collection
(referee.py lines 19-23) performs no clamping to [0,100].  A reported
resume score of 150 is consumed as 150 and flows unclamped into the
weighted sum (150 times the 0.2 resume weight contributes 30). -/
theorem claim_C7_cex :
    collectScore overState Source.resume = 150 ∧
    ¬ collectScore overState Source.resume ≤ 100 ∧
    weightedBeforeFairness overState = 30 := by
  refine ⟨rfl, ?_, ?_⟩
  · norm_num [collectScore, overState]
  · norm_num [weightedBeforeFairness, collectScore, overState, effectiveWeight,
      normalizeWeights, suppliedWeights, totalWeight, sourceList, defaultWeight]

/-- C7 (amended): a missing task-result dict or a missing score field is
treated as 0, but an out-of-range score is not clamped: the reported value
is used as-is, and no concern is recorded for it. -/
theorem claim_C7 (x : ℚ) (s : Source) (w : Option (Source → Option ℚ))
    (str : Option String) (adj : Option ℚ) :
    collectScore ⟨fun _ => none, w, str, adj⟩ s = 0 ∧
    collectScore ⟨fun _ => some none, w, str, adj⟩ s = 0 ∧
    collectScore ⟨fun _ => some (some x), w, str, adj⟩ s = x :=
  ⟨rfl, rfl, rfl⟩

/-- C8: the claim as stated is false on the code: strictness is read with
dict get (referee.py line 34), so the medium default applies only when the
key is absent; an unrecognized supplied value such as banana is passed
through unchanged to the decision prompt (line 149). -/
theorem claim_C8_cex :
    refereeStrictness
      { rawScore := fun _ => none, weights := none,
        strictness := some "banana", totalAdjustment := none } = "banana" ∧
    ("banana" : String) ≠ "medium" := by
  exact ⟨rfl, by decide⟩

/-- C8 (amended): the strictness used for the run is medium exactly when
the strictness key is absent from the hiring criteria; any supplied value,
recognized or not, is used unchanged. -/
theorem claim_C8 (raw : Source → Option (Option ℚ)) (w : Option (Source → Option ℚ))
    (adj : Option ℚ) (v : String) :
    refereeStrictness ⟨raw, w, none, adj⟩ = "medium" ∧
    refereeStrictness ⟨raw, w, some v, adj⟩ = v :=
  ⟨rfl, rfl⟩

/-- C9: when the hiring criteria supply all five weight entries as
non-negative numbers summing to zero, each entry is zero, normalization is
skipped, and the weighted pre-fairness score is 0 for every combination of
input scores. -/
theorem claim_C9 (raw : Source → Option (Option ℚ)) (w : Source → Option ℚ)
    (str : Option String) (adj : Option ℚ)
    (hall : ∀ s : Source, ∃ q, w s = some q ∧ 0 ≤ q)
    (hzero : totalWeight w = 0) :
    weightedBeforeFairness ⟨raw, some w, str, adj⟩ = 0 := by
  obtain ⟨q1, hw1, hq1⟩ := hall Source.resume
  obtain ⟨q2, hw2, hq2⟩ := hall Source.cover_letter
  obtain ⟨q3, hw3, hq3⟩ := hall Source.jd_match
  obtain ⟨q4, hw4, hq4⟩ := hall Source.github
  obtain ⟨q5, hw5, hq5⟩ := hall Source.location
  have hsum : q1 + (q2 + (q3 + (q4 + (q5 + 0)))) = 0 := by
    simpa [totalWeight, sourceList, hw1, hw2, hw3, hw4, hw5] using hzero
  have h1 : q1 = 0 := by linarith
  have h2 : q2 = 0 := by linarith
  have h3 : q3 = 0 := by linarith
  have h4 : q4 = 0 := by linarith
  have h5 : q5 = 0 := by linarith
  simp [weightedBeforeFairness, suppliedWeights, effectiveWeight, normalizeWeights,
    hzero, hw1, hw2, hw3, hw4, hw5, h1, h2, h3, h4, h5]

/-- Witness for C9: all five weights supplied as 0, all scores 77. -/
theorem claim_C9_witness :
    weightedBeforeFairness
      ⟨fun _ => some (some 77), some (fun _ => some 0), none, none⟩ = 0 :=
  claim_C9 (fun _ => some (some 77)) (fun _ => some 0) none none
    (fun _ => ⟨0, rfl, le_refl 0⟩)
    (by norm_num [totalWeight, sourceList])

/-- C10: a source name omitted from the supplied weights dict receives the
hard-coded per-source default weight after normalization of the supplied
entries only; with weights supplying only resume = 2, the effective
weights sum to 1.8 (not 1), and the omitted jd_match source still
contributes: a jd_match score of 100 with all other scores 0 yields a
weighted pre-fairness score of 30. -/
theorem claim_C10 :
    (∀ (w : Source → Option ℚ) (s : Source), w s = none →
      effectiveWeight w s = defaultWeight s) ∧
    exWeights Source.jd_match = none ∧
    (sourceList.map (effectiveWeight exWeights)).sum = 1.8 ∧
    (sourceList.map (effectiveWeight exWeights)).sum ≠ 1 ∧
    weightedBeforeFairness exState = 30 := by
  refine ⟨?_, rfl, ?_, ?_, ?_⟩
  · intro w s h
    by_cases hc : totalWeight w > 0 <;>
      simp [effectiveWeight, normalizeWeights, hc, h]
  · norm_num [effectiveWeight, normalizeWeights, exWeights, totalWeight,
      sourceList, defaultWeight]
  · norm_num [effectiveWeight, normalizeWeights, exWeights, totalWeight,
      sourceList, defaultWeight]
  · norm_num [weightedBeforeFairness, collectScore, exState, effectiveWeight,
      normalizeWeights, suppliedWeights, exWeights, totalWeight, sourceList,
      defaultWeight]

/-- Witness for C10: the omitted github entry receives its default
weight. -/
theorem claim_C10_witness :
    effectiveWeight exWeights Source.github = defaultWeight Source.github :=
  claim_C10.1 exWeights Source.github rfl

/-- SHORTLISTED threshold per strictness level, read off the DECISION RULES
table. -/
def shortThr : Strictness → ℚ
  | Strictness.high => 85
  | Strictness.medium => 75
  | Strictness.low => 60

/-- Lower bound of the MAYBE band per strictness level. -/
def maybeThr : Strictness → ℚ
  | Strictness.high => 70
  | Strictness.medium => 60
  | Strictness.low => 45

/-- The rank of the verdict label is a two-threshold step function of the
score. -/
theorem verdictRank_eq (lvl : Strictness) (x : ℚ) :
    verdictRank (verdictOf lvl x) =
      if shortThr lvl < x then 2 else if maybeThr lvl ≤ x then 1 else 0 := by
  cases lvl <;> simp only [verdictOf, shortThr, maybeThr] <;>
    split_ifs <;> simp_all [verdictRank]

/-- C2: the verdict policy is a pure function of final_score and
strictness; it follows the threshold table with strictly-greater-than for
SHORTLISTED and inclusive band edges for MAYBE (in particular medium at
exactly 75 gives MAYBE), and it is monotonically non-decreasing in the
score for fixed strictness. -/
theorem claim_C2 (lvl : Strictness) (x y : ℚ) (hxy : x ≤ y) :
    verdictRank (verdictOf lvl x) ≤ verdictRank (verdictOf lvl y) ∧
    (verdictOf Strictness.high x = VerdictLabel.SHORTLISTED ↔ 85 < x) ∧
    (verdictOf Strictness.high x = VerdictLabel.MAYBE ↔ 70 ≤ x ∧ x ≤ 85) ∧
    (verdictOf Strictness.high x = VerdictLabel.REJECTED ↔ x < 70) ∧
    (verdictOf Strictness.medium x = VerdictLabel.SHORTLISTED ↔ 75 < x) ∧
    (verdictOf Strictness.medium x = VerdictLabel.MAYBE ↔ 60 ≤ x ∧ x ≤ 75) ∧
    (verdictOf Strictness.medium x = VerdictLabel.REJECTED ↔ x < 60) ∧
    (verdictOf Strictness.low x = VerdictLabel.SHORTLISTED ↔ 60 < x) ∧
    (verdictOf Strictness.low x = VerdictLabel.MAYBE ↔ 45 ≤ x ∧ x ≤ 60) ∧
    (verdictOf Strictness.low x = VerdictLabel.REJECTED ↔ x < 45) ∧
    verdictOf Strictness.medium 75 = VerdictLabel.MAYBE := by
  refine ⟨?_, ?_, ?_, ?_, ?_, ?_, ?_, ?_, ?_, ?_, by decide⟩
  · rw [verdictRank_eq, verdictRank_eq]
    split_ifs <;> simp_all <;> linarith
  all_goals
    simp only [verdictOf]
    split_ifs <;> simp_all <;> linarith

/-- Witness for C2 at strictness medium with scores 50 and 80. -/
theorem claim_C2_witness :
    verdictRank (verdictOf Strictness.medium 50) ≤
      verdictRank (verdictOf Strictness.medium 80) ∧
    (verdictOf Strictness.high 50 = VerdictLabel.SHORTLISTED ↔ (85 : ℚ) < 50) ∧
    (verdictOf Strictness.high 50 = VerdictLabel.MAYBE ↔ (70 : ℚ) ≤ 50 ∧ (50 : ℚ) ≤ 85) ∧
    (verdictOf Strictness.high 50 = VerdictLabel.REJECTED ↔ (50 : ℚ) < 70) ∧
    (verdictOf Strictness.medium 50 = VerdictLabel.SHORTLISTED ↔ (75 : ℚ) < 50) ∧
    (verdictOf Strictness.medium 50 = VerdictLabel.MAYBE ↔ (60 : ℚ) ≤ 50 ∧ (50 : ℚ) ≤ 75) ∧
    (verdictOf Strictness.medium 50 = VerdictLabel.REJECTED ↔ (50 : ℚ) < 60) ∧
    (verdictOf Strictness.low 50 = VerdictLabel.SHORTLISTED ↔ (60 : ℚ) < 50) ∧
    (verdictOf Strictness.low 50 = VerdictLabel.MAYBE ↔ (45 : ℚ) ≤ 50 ∧ (50 : ℚ) ≤ 60) ∧
    (verdictOf Strictness.low 50 = VerdictLabel.REJECTED ↔ (50 : ℚ) < 45) ∧
    verdictOf Strictness.medium 75 = VerdictLabel.MAYBE :=
  claim_C2 Strictness.medium 50 80 (by norm_num)

/-- C3: the claim as stated is false on the code: initialize_llm is called
before the try block of every agent (resume.py line 16; llm.py raises
ValueError when GROQ_API_KEY is unset), so that failure propagates out of
the task instead of becoming a fallback TaskResult. -/
theorem claim_C3_cex :
    resume_analyst
      (InitOutcome.fail "GROQ_API_KEY environment variable is not set")
      TaskStep.jsonDecodeError =
    Except.error "GROQ_API_KEY environment variable is not set" := rfl

/-- C3 (amended): once the LLM client initializes successfully, the task is
total: every backend outcome yields a well-formed TaskResult, and both
failure outcomes (JSON decode failure, any other exception) yield a
fallback with score 0 and a recorded failure explanation; only an
initialization failure, raised before the try block, escapes the task
boundary. -/
theorem claim_C3 (step : TaskStep) (e : String) :
    resume_analyst InitOutcome.ok step = Except.ok (resumeResult step) ∧
    (resumeResult TaskStep.jsonDecodeError).score = 0 ∧
    (resumeResult TaskStep.jsonDecodeError).weaknesses ≠ [] ∧
    (resumeResult (TaskStep.invokeError e)).score = 0 ∧
    (resumeResult (TaskStep.invokeError e)).weaknesses ≠ [] := by
  refine ⟨rfl, rfl, ?_, rfl, ?_⟩ <;> simp [resumeResult]

/-- Task events are never terminal, so filtering them away empties the
mapped part of a stream. -/
theorem filter_terminal_map (l : List Node) :
    (l.map Ev.task).filter (fun e => isTerminal e) = [] := by
  induction l with
  | nil => rfl
  | cons x rest ih => simp [List.filter_cons, isTerminal, ih]

/-- In an admissible completion order, every dependency of a node completes
strictly earlier (unless it was already recorded as seen). -/
theorem seenOK_indexOf_lt :
    ∀ (s seen : List Node), seenOK seen s = true → s.Nodup →
    ∀ b d : Node, b ∈ s → d ∈ deps b → d ∉ seen →
    s.indexOf d < s.indexOf b := by
  intro s
  induction s with
  | nil => intro seen _ _ b d hb; exact absurd hb (List.not_mem_nil b)
  | cons x rest ih =>
    intro seen hOK hnd b d hb hd hdseen
    have hOK1 : (deps x).all (fun y => decide (y ∈ seen)) = true ∧
        seenOK (x :: seen) rest = true := by
      simpa [seenOK, Bool.and_eq_true] using hOK
    rcases List.mem_cons.mp hb with hbx | hbr
    · subst hbx
      have : d ∈ seen := of_decide_eq_true (List.all_eq_true.mp hOK1.1 d hd)
      exact absurd this hdseen
    · have hxb : x ≠ b := fun h => (List.nodup_cons.mp hnd).1 (h ▸ hbr)
      by_cases hdx : d = x
      · subst hdx
        rw [List.indexOf_cons_self, List.indexOf_cons_ne rest hxb]
        exact Nat.succ_pos _
      · have hdseen2 : d ∉ x :: seen := by
          intro h
          rcases List.mem_cons.mp h with h1 | h2
          · exact hdx h1
          · exact hdseen h2
        have := ih (x :: seen) hOK1.2 (List.nodup_cons.mp hnd).2 b d hbr hd hdseen2
        rw [List.indexOf_cons_ne rest (fun h => hdx h.symm),
            List.indexOf_cons_ne rest hxb]
        omega

/-- Position of a task event in the success stream equals the position of
its node in the completion order. -/
theorem indexOf_task_stream (a : Node) (s : List Node) (ha : a ∈ s) :
    (s.map Ev.task ++ [Ev.completionEv]).indexOf (Ev.task a) = s.indexOf a := by
  induction s with
  | nil => exact absurd ha (List.not_mem_nil a)
  | cons x rest ih =>
    by_cases hax : x = a
    · subst hax
      simp [List.indexOf_cons_self]
    · have ha2 : a ∈ rest := by
        rcases List.mem_cons.mp ha with h | h
        · exact absurd h.symm hax
        · exact h
      have hne : Ev.task x ≠ Ev.task a := fun h => hax (Ev.task.inj h)
      rw [List.map_cons, List.cons_append,
          List.indexOf_cons_ne _ hne, List.indexOf_cons_ne rest hax, ih ha2]

/-- The completion message sits at the very end of the success stream. -/
theorem indexOf_completion_stream (s : List Node) :
    (s.map Ev.task ++ [Ev.completionEv]).indexOf Ev.completionEv = s.length := by
  induction s with
  | nil => simp
  | cons x rest ih =>
    have hne : Ev.task x ≠ Ev.completionEv := by intro h; cases h
    rw [List.map_cons, List.cons_append, List.indexOf_cons_ne _ hne, ih,
        List.length_cons]

/-- A duplicate-free completion order containing every node has exactly the
seven graph nodes. -/
theorem nodesLength (s : List Node) (h2 : s.Nodup) (h3 : ∀ n : Node, n ∈ s) :
    s.length = 7 := by
  have hsub : allNodes ⊆ s := fun n _ => h3 n
  have hsub2 : s ⊆ allNodes := by
    intro n _
    cases n <;> simp [allNodes]
  have hnodupA : allNodes.Nodup := by decide
  have hle1 : allNodes.length ≤ s.length :=
    (List.subperm_of_subset hnodupA hsub).length_le
  have hle2 : s.length ≤ allNodes.length :=
    (List.subperm_of_subset h2 hsub2).length_le
  have h7 : allNodes.length = 7 := rfl
  omega

/-- C4: on a fully successful run, for any admissible duplicate-free
completion order covering all seven nodes, the stream has exactly 8 events
of which exactly 1 is terminal (hence 7 task events), every Layer-1 event
precedes the fairness-audit event, which precedes the verdict event, which
precedes the terminal completion event. -/
theorem claim_C4 (s : List Node) (h1 : respectsDeps s = true)
    (h2 : s.Nodup) (h3 : ∀ n : Node, n ∈ s) :
    (successStream s).length = 8 ∧
    ((successStream s).filter (fun e => isTerminal e)).length = 1 ∧
    (∀ n ∈ layer1,
      (successStream s).indexOf (Ev.task n) <
        (successStream s).indexOf (Ev.task Node.fairness_auditor)) ∧
    (successStream s).indexOf (Ev.task Node.fairness_auditor) <
      (successStream s).indexOf (Ev.task Node.referee_agent) ∧
    (successStream s).indexOf (Ev.task Node.referee_agent) <
      (successStream s).indexOf Ev.completionEv := by
  have hlen : s.length = 7 := nodesLength s h2 h3
  refine ⟨?_, ?_, ?_, ?_, ?_⟩
  · simp [successStream, hlen]
  · simp [successStream, List.filter_append, filter_terminal_map, isTerminal]
  · intro n hn
    have hdep : n ∈ deps Node.fairness_auditor := by simpa [deps] using hn
    have hlt := seenOK_indexOf_lt s [] h1 h2 Node.fairness_auditor n (h3 _) hdep
      (List.not_mem_nil n)
    simp only [successStream]
    rw [indexOf_task_stream n s (h3 n), indexOf_task_stream _ s (h3 _)]
    exact hlt
  · have hdep : Node.fairness_auditor ∈ deps Node.referee_agent := by simp [deps]
    have hlt := seenOK_indexOf_lt s [] h1 h2 Node.referee_agent
      Node.fairness_auditor (h3 _) hdep (List.not_mem_nil _)
    simp only [successStream]
    rw [indexOf_task_stream _ s (h3 _), indexOf_task_stream _ s (h3 _)]
    exact hlt
  · simp only [successStream]
    rw [indexOf_task_stream _ s (h3 _), indexOf_completion_stream, hlen]
    have := List.indexOf_lt_length.mpr (h3 Node.referee_agent)
    omega

/-- Witness for C4 at the registration-order schedule. -/
theorem claim_C4_witness :
    (successStream allNodes).length = 8 ∧
    ((successStream allNodes).filter (fun e => isTerminal e)).length = 1 ∧
    (∀ n ∈ layer1,
      (successStream allNodes).indexOf (Ev.task n) <
        (successStream allNodes).indexOf (Ev.task Node.fairness_auditor)) ∧
    (successStream allNodes).indexOf (Ev.task Node.fairness_auditor) <
      (successStream allNodes).indexOf (Ev.task Node.referee_agent) ∧
    (successStream allNodes).indexOf (Ev.task Node.referee_agent) <
      (successStream allNodes).indexOf Ev.completionEv :=
  claim_C4 allNodes (by decide) (by decide) (by decide)

/-- C5: every run stream ends with exactly one terminal event — the
completion message on success, the error message on abort — and never
contains both. -/
theorem claim_C5 (o : RunOutcome) :
    (∃ t, (eventStream o).getLast? = some t ∧ isTerminal t = true) ∧
    ((eventStream o).filter (fun e => isTerminal e)).length = 1 ∧
    ¬(Ev.completionEv ∈ eventStream o ∧ Ev.errorEv ∈ eventStream o) := by
  cases o with
  | success s =>
    refine ⟨⟨Ev.completionEv, by simp [eventStream, successStream], rfl⟩, ?_, ?_⟩
    · simp [eventStream, successStream, List.filter_append, filter_terminal_map,
        isTerminal]
    · rintro ⟨-, he⟩
      simp [eventStream, successStream] at he
  | aborted p =>
    refine ⟨⟨Ev.errorEv, by simp [eventStream, abortStream], rfl⟩, ?_, ?_⟩
    · simp [eventStream, abortStream, List.filter_append, filter_terminal_map,
        isTerminal]
    · rintro ⟨hc, -⟩
      simp [eventStream, abortStream] at hc

end HackSorter
